import Mathlib

/-!
# GameDownloader: the capture controller of `src/background.js`

A shallow embedding of the background script.  The module-level variables
(`gameFiles`, `currentGameHost`, `currentGameBasePathSegment`, `indexHtmlUrl`,
`activeDownloads`) become the fields of `State`, and every listener becomes a
function from the state before the event to the state after it, together with
the effects it performs (header rewrite, calls of `fetchAndStoreAsset`, calls
of `zip.file`, `browser.downloads.download`, `sendResponse`).

Conventions.

* JavaScript strings are Lean `String`s.  Every string the script inspects is a
  component of a serialised URL (`hostname`, `pathname`) or an HTTP header
  name; these are ASCII, so one Lean `Char` is one UTF-16 code unit and
  `toLowerCase` acts on the letters `A`-`Z` only.
* `new URL(details.url)` is performed by the host; a request carries its
  `url` together with the parsed `hostname` and `pathname`.
* What the host answers (the fetch response, the active tab, the outcome of
  `browser.downloads.download`, the object URL) is an explicit argument.
-/

namespace GameDownloader

/-! ## JavaScript string primitives -/

/-- The method `s.endsWith(suffix)`. -/
def endsWith (s suffix : String) : Bool :=
  suffix.data.isSuffixOf s.data

/-- The method `s.startsWith(p)`. -/
def startsWith (s p : String) : Bool :=
  p.data.isPrefixOf s.data

/-- The method `s.substring(n)`. -/
def substring (s : String) (n : Nat) : String :=
  ⟨s.data.drop n⟩

/-- The method `s.toLowerCase()`. -/
def toLowerCase (s : String) : String :=
  ⟨s.data.map Char.toLower⟩

/-- Splitting a list of characters at every occurrence of `sep`; the pieces
between two separators, before the first and after the last one are all kept,
also when empty. -/
def splitChars (sep : Char) : List Char → List (List Char)
  | [] => [[]]
  | c :: cs =>
    if c = sep then [] :: splitChars sep cs
    else
      match splitChars sep cs with
      | [] => [[c]]
      | seg :: rest => (c :: seg) :: rest

/-- The method `s.split(sep)` for a one-character separator. -/
def split (s : String) (sep : Char) : List String :=
  (splitChars sep s.data).map String.mk

/-- Truthiness of a value that is `null` or a string: `null` and `''` are
falsy. -/
def truthy : Option String → Bool
  | none => false
  | some s => s != ""

/-- The template literal `https://${host}/`; a `null` host prints as `null`. -/
def hostReferer : Option String → String
  | none => "https://null/"
  | some h => "https://" ++ h ++ "/"

/-- The method `a.indexOf(x)` on an array of strings: the first index holding `x`, and
`none` for the result `-1`. -/
def indexOf (x : String) : List String → Option Nat
  | [] => none
  | y :: ys => if y = x then some 0 else (indexOf x ys).map (· + 1)

/-! ## Data model -/

/-- A binary payload: the bytes of a `Blob`. -/
abbrev Blob := List Nat

/-- One entry of `details.requestHeaders` (`webRequest.HttpHeaders`). -/
structure Header where
  name : String
  value : Option String
  binaryValue : Option (List Nat)
deriving DecidableEq

/-- The argument of `handleHeaders`: the request URL with the two components
the handler reads from `new URL(details.url)`, and the request headers. -/
structure Details where
  url : String
  hostname : String
  pathname : String
  requestHeaders : List Header
deriving DecidableEq

/-- The module-level variables of `background.js` (lines 1-10).  `gameFiles`
lists the own properties of the object in the order `for ... in` and
`Object.keys` enumerate them, `activeDownloads` the entries of the `Map` in
insertion order. -/
structure State where
  gameFiles : List (String × Blob)
  currentGameHost : Option String
  currentGameBasePathSegment : Option String
  indexHtmlUrl : Option String
  activeDownloads : List (Nat × String)
deriving DecidableEq

/-- The state right after the script is loaded. -/
def initialState : State :=
  { gameFiles := [], currentGameHost := none, currentGameBasePathSegment := none,
    indexHtmlUrl := none, activeDownloads := [] }

/-! ## `setReferer` (lines 91-103) -/

/-- The `for ... of` loop of `setReferer` (lines 93-99): the headers after the
loop and the final value of the flag `refererSet`.  The loop stops at the first
header whose lower-cased name is `referer`. -/
def setRefererLoop (refererValue : String) : List Header → List Header × Bool
  | [] => ([], false)
  | header :: rest =>
    if toLowerCase header.name = "referer" then
      ({ header with value := some refererValue } :: rest, true)
    else
      let r := setRefererLoop refererValue rest
      (header :: r.1, r.2)

/-- The function `setReferer(headers, refererValue)`: the loop, then the `push` of line 101
when the flag is still unset. -/
def setReferer (headers : List Header) (refererValue : String) : List Header :=
  let r := setRefererLoop refererValue headers
  if !r.2 then
    r.1 ++ [{ name := "Referer", value := some refererValue, binaryValue := none }]
  else r.1

/-! ## `handleHeaders` (lines 23-88) -/

/-- The loop of lines 46-52 of `handleHeaders`, written inline in the source
for the first `index.html` request. -/
def firstIndexRefererLoop : List Header → List Header × Bool
  | [] => ([], false)
  | header :: rest =>
    if toLowerCase header.name = "referer" then
      ({ header with value := some "https://games.poki.com/" } :: rest, true)
    else
      let r := firstIndexRefererLoop rest
      (header :: r.1, r.2)

/-- What one run of `handleHeaders` does: the state afterwards, the returned
`requestHeaders`, and the call `fetchAndStoreAsset(url, storagePath)` it makes,
if any. -/
structure HandlerResult where
  state : State
  requestHeaders : List Header
  capture : Option (String × String)
deriving DecidableEq

/-- The listener `handleHeaders(details)`: the three branches of lines 30-85 and
the return of line 87. -/
def handleHeaders (s : State) (details : Details) : HandlerResult :=
  let requestHostname := details.hostname
  let requestPathname := details.pathname
  if endsWith requestPathname "index.html" then
    if !truthy s.currentGameHost then
      let pathSegments := (split requestPathname '/').filter (fun seg => seg != "")
      let base :=
        if pathSegments.length > 1 then "/" ++ pathSegments.headD "" ++ "/" else "/"
      let r := firstIndexRefererLoop details.requestHeaders
      let headers :=
        if !r.2 then
          r.1 ++ [{ name := "Referer", value := some "https://games.poki.com/",
                    binaryValue := none }]
        else r.1
      { state := { s with currentGameHost := some requestHostname,
                          indexHtmlUrl := some details.url,
                          currentGameBasePathSegment := some base },
        requestHeaders := headers,
        capture := some (details.url, "index.html") }
    else if some requestHostname = s.currentGameHost then
      { state := s,
        requestHeaders := setReferer details.requestHeaders (hostReferer s.currentGameHost),
        capture := some (details.url, "index.html") }
    else
      { state := s, requestHeaders := details.requestHeaders, capture := none }
  else if truthy s.currentGameHost && some requestHostname = s.currentGameHost then
    let relativePath :=
      if truthy s.currentGameBasePathSegment
          && startsWith requestPathname (s.currentGameBasePathSegment.getD "") then
        substring requestPathname (s.currentGameBasePathSegment.getD "").length
      else substring requestPathname 1
    { state := s,
      requestHeaders := setReferer details.requestHeaders (hostReferer s.currentGameHost),
      capture := if relativePath != "" then some (details.url, relativePath) else none }
  else
    { state := s, requestHeaders := details.requestHeaders, capture := none }

/-! ## `fetchAndStoreAsset` (lines 106-125) -/

/-- The property names every object inherits from `Object.prototype`; reading
one of them from `gameFiles` gives a function or object, which is truthy. -/
def objectPrototypeKeys : List String :=
  ["constructor", "hasOwnProperty", "isPrototypeOf", "propertyIsEnumerable",
   "toLocaleString", "toString", "valueOf", "__defineGetter__", "__defineSetter__",
   "__lookupGetter__", "__lookupSetter__", "__proto__"]

/-- Truthiness of `gameFiles[storagePath]`: an own property (a `Blob`, always
truthy) or an inherited one. -/
def hasFile (gameFiles : List (String × Blob)) (storagePath : String) : Bool :=
  (gameFiles.lookup storagePath).isSome || objectPrototypeKeys.contains storagePath

/-- The array index a property key denotes, if any: a key that is the decimal
numeral, without leading zero, of a number below `2^32 - 1`.  An object
enumerates such keys first, in ascending numeric order, and the other string
keys after them in the order they were added. -/
def arrayIndex? (key : String) : Option Nat :=
  match key.data with
  | [] => none
  | c :: cs =>
    if c = '0' then (if cs = [] then some 0 else none)
    else if (c :: cs).all Char.isDigit then
      let n := (c :: cs).foldl (fun acc d => 10 * acc + (d.toNat - 48)) 0
      if n < 4294967295 then some n else none
    else none

/-- Giving the value `blob` to the own property `storagePath` that the object
already has: the property keeps its place. -/
def replaceFile (storagePath : String) (blob : Blob) :
    List (String × Blob) → List (String × Blob)
  | [] => []
  | (k, v) :: rest =>
    if k = storagePath then (k, blob) :: rest
    else (k, v) :: replaceFile storagePath blob rest

/-- Adding the new own property `storagePath`: an array index goes before the
first larger array index and before every other key, any other key goes last. -/
def insertFile (storagePath : String) (blob : Blob) :
    List (String × Blob) → List (String × Blob)
  | [] => [(storagePath, blob)]
  | (k, v) :: rest =>
    match arrayIndex? storagePath with
    | none => (k, v) :: insertFile storagePath blob rest
    | some n =>
      match arrayIndex? k with
      | some m =>
        if n < m then (storagePath, blob) :: (k, v) :: rest
        else (k, v) :: insertFile storagePath blob rest
      | none => (storagePath, blob) :: (k, v) :: rest

/-- The assignment `gameFiles[storagePath] = blob`: an existing own property
gets the new value in place, otherwise the property is added at its place in
the enumeration order. -/
def assignFile (storagePath : String) (blob : Blob) (gameFiles : List (String × Blob)) :
    List (String × Blob) :=
  if (gameFiles.lookup storagePath).isSome then replaceFile storagePath blob gameFiles
  else insertFile storagePath blob gameFiles

/-- Where an invocation of `fetchAndStoreAsset` stands: suspended at
`await fetch(url)` (line 110), suspended at `await response.blob()` (line 113),
or returned. -/
inductive Phase where
  | awaitingResponse
  | awaitingBlob
  | returned
deriving DecidableEq

/-- One invocation of `fetchAndStoreAsset(url, storagePath)`. -/
structure Invocation where
  url : String
  storagePath : String
  phase : Phase
deriving DecidableEq

/-- The script while captures are in flight: the module state, the invocations
of `fetchAndStoreAsset` in the order they were called, and the log of the
executions of line 114 (`gameFiles[storagePath] = blob`), oldest first. -/
structure Runtime where
  state : State
  invocations : List Invocation
  stores : List (String × Blob)
deriving DecidableEq

/-- The script right after it is loaded, with nothing in flight. -/
def initialRuntime : Runtime :=
  { state := initialState, invocations := [], stores := [] }

/-- The events that run a segment of code between two suspension points. -/
inductive CaptureEvent where
  /-- The browser hands a request to `handleHeaders`. -/
  | request (details : Details)
  /-- The fetch of invocation `i` resolves with a response, `ok` being `response.ok`. -/
  | fetchResolved (i : Nat) (ok : Bool)
  /-- The fetch of invocation `i` rejects. -/
  | fetchRejected (i : Nat)
  /-- The body read of invocation `i` resolves with `blob`. -/
  | blobResolved (i : Nat) (blob : Blob)
  /-- The body read of invocation `i` rejects. -/
  | blobRejected (i : Nat)

/-- The call `fetchAndStoreAsset(url, storagePath)` up to its first suspension
point (lines 107-110). -/
def fetchAndStoreAssetCall (rt : Runtime) (url storagePath : String) : Runtime :=
  if !hasFile rt.state.gameFiles storagePath then
    { rt with invocations := rt.invocations ++ [⟨url, storagePath, Phase.awaitingResponse⟩] }
  else
    { rt with invocations := rt.invocations ++ [⟨url, storagePath, Phase.returned⟩] }

/-- The segment of invocation `i` that runs when its fetch resolves (lines
111-113 and 118-119). -/
def fetchAndStoreAssetResponse (rt : Runtime) (i : Nat) (ok : Bool) : Runtime :=
  match rt.invocations[i]? with
  | some inv =>
    if inv.phase = Phase.awaitingResponse then
      if ok then
        if !hasFile rt.state.gameFiles inv.storagePath then
          { rt with invocations := rt.invocations.set i { inv with phase := Phase.awaitingBlob } }
        else
          { rt with invocations := rt.invocations.set i { inv with phase := Phase.returned } }
      else
        { rt with invocations := rt.invocations.set i { inv with phase := Phase.returned } }
    else rt
  | none => rt

/-- The segment of invocation `i` that runs when `response.blob()` resolves
(lines 113-116). -/
def fetchAndStoreAssetBlob (rt : Runtime) (i : Nat) (blob : Blob) : Runtime :=
  match rt.invocations[i]? with
  | some inv =>
    if inv.phase = Phase.awaitingBlob then
      { state := { rt.state with gameFiles := assignFile inv.storagePath blob rt.state.gameFiles },
        invocations := rt.invocations.set i { inv with phase := Phase.returned },
        stores := rt.stores ++ [(inv.storagePath, blob)] }
    else rt
  | none => rt

/-- The `catch` of line 121 for invocation `i`, suspended in phase `ph`. -/
def fetchAndStoreAssetCatch (rt : Runtime) (i : Nat) (ph : Phase) : Runtime :=
  match rt.invocations[i]? with
  | some inv =>
    if inv.phase = ph then
      { rt with invocations := rt.invocations.set i { inv with phase := Phase.returned } }
    else rt
  | none => rt

/-- One step of the script: the segment of code the event runs. -/
def step (rt : Runtime) : CaptureEvent → Runtime
  | CaptureEvent.request details =>
    let r := handleHeaders rt.state details
    match r.capture with
    | some (url, storagePath) =>
      fetchAndStoreAssetCall { rt with state := r.state } url storagePath
    | none => { rt with state := r.state }
  | CaptureEvent.fetchResolved i ok => fetchAndStoreAssetResponse rt i ok
  | CaptureEvent.fetchRejected i => fetchAndStoreAssetCatch rt i Phase.awaitingResponse
  | CaptureEvent.blobResolved i blob => fetchAndStoreAssetBlob rt i blob
  | CaptureEvent.blobRejected i => fetchAndStoreAssetCatch rt i Phase.awaitingBlob

/-- The script after a sequence of events. -/
def steps (rt : Runtime) (events : List CaptureEvent) : Runtime :=
  events.foldl step rt

/-! ## Export: the `createZip` listener (lines 128-182) and
`generateAndDownloadZip` (lines 186-233) -/

/-- What `browser.tabs.query` and `new URL(activeTabUrl)` give in lines
144-148: the query rejects, there is no tab, the first tab has no URL, the URL
does not parse, or it parses to a hostname and a pathname. -/
inductive TabQuery where
  | rejected
  | noTabs
  | noUrl
  | invalidUrl
  | url (hostname pathname : String)
deriving DecidableEq

/-- The characters the expression `/[^a-zA-Z0-9_-]/g` leaves in place. -/
def keptChar (c : Char) : Bool :=
  c.isLower || c.isUpper || c.isDigit || c == '_' || c == '-'

/-- The replacement of line 154: `name.replace(/[^a-zA-Z0-9_-]/g, '_')`. -/
def sanitize (name : String) : String :=
  ⟨name.data.map (fun c => if keptChar c then c else '_')⟩

/-- The value of `pokiGameName` after lines 142-167. -/
def pokiGameName : TabQuery → String
  | TabQuery.url hostname pathname =>
    if endsWith hostname "poki.com" then
      let pathParts := split pathname '/'
      match indexOf "g" pathParts with
      | some gameIdIndex =>
        if gameIdIndex < pathParts.length - 1 then
          sanitize (pathParts.getD (gameIdIndex + 1) "")
        else "poki_game"
      | none => "poki_game"
    else "poki_game"
  | _ => "poki_game"

/-- How `browser.downloads.download` settles. -/
inductive DownloadOutcome where
  | started (downloadId : Nat)
  | rejected (message : String)
deriving DecidableEq

/-- What the host answers during one export: whether `zip.generateAsync`
rejects (and with which message), the string `URL.createObjectURL` returns, and
how the download call settles. -/
structure HostAnswers where
  zipError : Option String
  objectUrl : String
  download : DownloadOutcome
deriving DecidableEq

/-- The argument of `browser.downloads.download` (lines 211-216). -/
structure DownloadOptions where
  url : String
  filename : String
  conflictAction : String
  saveAs : Bool
deriving DecidableEq

/-- What one run of `generateAndDownloadZip` does: the state afterwards, the
calls `zip.file(path, blob)` in order, the calls of
`browser.downloads.download`, the object URLs revoked, and how the returned
promise settles (`none`: resolved, `some m`: rejected with `error.message = m`). -/
structure ExportResult where
  state : State
  zipFiles : List (String × Blob)
  downloads : List DownloadOptions
  revoked : List String
  error : Option String
deriving DecidableEq

/-- The loop of lines 190-195: the `zip.file` calls and the final `fileCount`. -/
def addFiles : List (String × Blob) → List (String × Blob) × Nat
  | [] => ([], 0)
  | (path, blob) :: rest =>
    let r := addFiles rest
    ((path, blob) :: r.1, r.2 + 1)

/-- The call `activeDownloads.set(downloadId, objectUrl)`. -/
def mapSet (downloadId : Nat) (objectUrl : String) : List (Nat × String) → List (Nat × String)
  | [] => [(downloadId, objectUrl)]
  | (k, v) :: rest =>
    if k = downloadId then (k, objectUrl) :: rest
    else (k, v) :: mapSet downloadId objectUrl rest

/-- Lines 218-227: what runs once the download has started with `downloadId`. -/
def downloadStarted (s : State) (downloadId : Nat) (objectUrl : String) : State :=
  { gameFiles := [], currentGameHost := none, currentGameBasePathSegment := none,
    indexHtmlUrl := none, activeDownloads := mapSet downloadId objectUrl s.activeDownloads }

/-- The function `generateAndDownloadZip(pokiGameName)`, run with no other event between
its suspension points. -/
def generateAndDownloadZip (s : State) (pokiGameName : String) (host : HostAnswers) :
    ExportResult :=
  let r := addFiles s.gameFiles
  if r.2 = 0 then
    { state := s, zipFiles := r.1, downloads := [], revoked := [],
      error := some "No files to add to zip." }
  else
    match host.zipError with
    | some m => { state := s, zipFiles := r.1, downloads := [], revoked := [], error := some m }
    | none =>
      let objectUrl := host.objectUrl
      let filename := pokiGameName ++ ".zip"
      let options : DownloadOptions :=
        { url := objectUrl, filename := filename, conflictAction := "uniquify", saveAs := false }
      match host.download with
      | DownloadOutcome.started downloadId =>
        { state := downloadStarted s downloadId objectUrl, zipFiles := r.1,
          downloads := [options], revoked := [], error := none }
      | DownloadOutcome.rejected _ =>
        { state := s, zipFiles := r.1, downloads := [options], revoked := [objectUrl],
          error := none }

/-- The argument of `sendResponse`. -/
inductive Response where
  | success
  | error (message : String)
deriving DecidableEq

/-- What one run of the message listener does: the state afterwards, the
argument of `sendResponse` if it is called, and the run of
`generateAndDownloadZip` if it is called. -/
structure ListenerResult where
  state : State
  response : Option Response
  zipRun : Option ExportResult
deriving DecidableEq

/-- The `browser.runtime.onMessage` listener, for a message whose `action` is
the given string. -/
def onMessage (s : State) (action : String) (tabs : TabQuery) (host : HostAnswers) :
    ListenerResult :=
  if action = "createZip" then
    let fileCount := s.gameFiles.length
    if fileCount = 0 then
      { state := s, response := some (Response.error "No files captured."), zipRun := none }
    else
      let name := pokiGameName tabs
      let r := generateAndDownloadZip s name host
      { state := r.state,
        response := some (match r.error with
          | none => Response.success
          | some m => Response.error m),
        zipRun := some r }
  else
    { state := s, response := none, zipRun := none }

/-! ## Referer rewrite -/

theorem setRefererLoop_no_match (v : String) (hs : List Header)
    (h : ∀ x ∈ hs, toLowerCase x.name ≠ "referer") :
    setRefererLoop v hs = (hs, false) := by
  induction hs with
  | nil => rfl
  | cons a t ih =>
    have ha : toLowerCase a.name ≠ "referer" := h a (List.mem_cons_self _ _)
    have ht := ih (fun x hx => h x (List.mem_cons_of_mem _ hx))
    simp [setRefererLoop, ha, ht]

theorem setRefererLoop_first_match (v : String) (pre post : List Header) (a : Header)
    (hpre : ∀ x ∈ pre, toLowerCase x.name ≠ "referer")
    (ha : toLowerCase a.name = "referer") :
    setRefererLoop v (pre ++ a :: post) = (pre ++ { a with value := some v } :: post, true) := by
  induction pre with
  | nil => simp [setRefererLoop, ha]
  | cons b t ih =>
    have hb : toLowerCase b.name ≠ "referer" := hpre b (List.mem_cons_self _ _)
    have ht := ih (fun x hx => hpre x (List.mem_cons_of_mem _ hx))
    simp [setRefererLoop, hb, ht]

theorem firstIndexRefererLoop_eq (hs : List Header) :
    firstIndexRefererLoop hs = setRefererLoop "https://games.poki.com/" hs := by
  induction hs with
  | nil => rfl
  | cons a t ih =>
    by_cases ha : toLowerCase a.name = "referer"
    · simp [firstIndexRefererLoop, setRefererLoop, ha]
    · simp [firstIndexRefererLoop, setRefererLoop, ha, ih]

/-- C1: `setReferer(hs, v)` appends `Referer: v` when no header is named
`referer` up to case, and otherwise replaces the value of the first such header
in place; all other headers keep name, value and position, the length grows by
1 or 0 accordingly, and the inline rewrite of the first `index.html` request of
`handleHeaders` is `setReferer` at `https://games.poki.com/`. -/
theorem setReferer_replaces_first_or_appends (hs : List Header) (v : String) :
    ((∀ x ∈ hs, toLowerCase x.name ≠ "referer") →
      setReferer hs v
        = hs ++ [{ name := "Referer", value := some v, binaryValue := none }]
      ∧ (setReferer hs v).length = hs.length + 1) ∧
    (∀ (pre post : List Header) (a : Header), hs = pre ++ a :: post →
      (∀ x ∈ pre, toLowerCase x.name ≠ "referer") → toLowerCase a.name = "referer" →
      setReferer hs v = pre ++ { a with value := some v } :: post
      ∧ (setReferer hs v).length = hs.length) ∧
    (∀ (s : State) (d : Details), d.requestHeaders = hs →
      endsWith d.pathname "index.html" = true → truthy s.currentGameHost = false →
      (handleHeaders s d).requestHeaders = setReferer hs "https://games.poki.com/") := by
  refine ⟨?_, ?_, ?_⟩
  · intro h
    have e : setReferer hs v
        = hs ++ [{ name := "Referer", value := some v, binaryValue := none }] := by
      simp [setReferer, setRefererLoop_no_match v hs h]
    exact ⟨e, by rw [e]; simp⟩
  · intro pre post a hhs hpre ha
    subst hhs
    have e : setReferer (pre ++ a :: post) v = pre ++ { a with value := some v } :: post := by
      simp [setReferer, setRefererLoop_first_match v pre post a hpre ha]
    exact ⟨e, by rw [e]; simp⟩
  · intro s d hd hentry hnone
    subst hd
    simp [handleHeaders, hentry, hnone, setReferer, firstIndexRefererLoop_eq]

/-- Witness for C1: a list without Referer gets one appended, a list whose
second header is `REFERER` has that value replaced in place, and the first
`index.html` request of a session is rewritten the same way. -/
theorem setReferer_replaces_first_or_appends_witness :
    (setReferer [⟨"Accept", some "*/*", none⟩] "https://a.poki-gdn.com/"
        = [⟨"Accept", some "*/*", none⟩, ⟨"Referer", some "https://a.poki-gdn.com/", none⟩]
      ∧ (setReferer [⟨"Accept", some "*/*", none⟩] "https://a.poki-gdn.com/").length = 1 + 1) ∧
    (setReferer [⟨"Accept", some "*/*", none⟩, ⟨"REFERER", some "https://poki.com/", none⟩,
          ⟨"referer", some "x", none⟩] "https://a.poki-gdn.com/"
        = [⟨"Accept", some "*/*", none⟩, ⟨"REFERER", some "https://a.poki-gdn.com/", none⟩,
          ⟨"referer", some "x", none⟩]
      ∧ (setReferer [⟨"Accept", some "*/*", none⟩, ⟨"REFERER", some "https://poki.com/", none⟩,
          ⟨"referer", some "x", none⟩] "https://a.poki-gdn.com/").length = 3) ∧
    (handleHeaders initialState
        ⟨"https://a.poki-gdn.com/u/index.html", "a.poki-gdn.com", "/u/index.html",
          [⟨"referer", some "x", none⟩]⟩).requestHeaders
      = setReferer [⟨"referer", some "x", none⟩] "https://games.poki.com/" :=
  ⟨(setReferer_replaces_first_or_appends [⟨"Accept", some "*/*", none⟩]
      "https://a.poki-gdn.com/").1 (by decide),
   (setReferer_replaces_first_or_appends
      [⟨"Accept", some "*/*", none⟩, ⟨"REFERER", some "https://poki.com/", none⟩,
        ⟨"referer", some "x", none⟩] "https://a.poki-gdn.com/").2.1
      [⟨"Accept", some "*/*", none⟩] [⟨"referer", some "x", none⟩]
      ⟨"REFERER", some "https://poki.com/", none⟩ rfl (by decide) (by decide),
   (setReferer_replaces_first_or_appends [⟨"referer", some "x", none⟩] "v").2.2 initialState
      ⟨"https://a.poki-gdn.com/u/index.html", "a.poki-gdn.com", "/u/index.html",
        [⟨"referer", some "x", none⟩]⟩ rfl (by decide) (by decide)⟩

/-! ## Session identification -/

theorem handleHeaders_state_of_identified (s : State) (d : Details)
    (h : truthy s.currentGameHost = true) : (handleHeaders s d).state = s := by
  simp only [handleHeaders, h, Bool.not_true, Bool.false_eq_true, if_false]
  split_ifs <;> rfl

theorem handleHeaders_state_of_asset (s : State) (d : Details)
    (h : endsWith d.pathname "index.html" = false) : (handleHeaders s d).state = s := by
  simp only [handleHeaders, h, Bool.false_eq_true, if_false]
  split_ifs <;> rfl

theorem fetchAndStoreAssetCall_state (rt : Runtime) (url p : String) :
    (fetchAndStoreAssetCall rt url p).state = rt.state := by
  unfold fetchAndStoreAssetCall
  split_ifs <;> rfl

theorem fetchAndStoreAssetResponse_state (rt : Runtime) (i : Nat) (ok : Bool) :
    (fetchAndStoreAssetResponse rt i ok).state = rt.state := by
  unfold fetchAndStoreAssetResponse
  split
  · split_ifs <;> rfl
  · rfl

theorem fetchAndStoreAssetCatch_state (rt : Runtime) (i : Nat) (ph : Phase) :
    (fetchAndStoreAssetCatch rt i ph).state = rt.state := by
  unfold fetchAndStoreAssetCatch
  split
  · split_ifs <;> rfl
  · rfl

theorem fetchAndStoreAssetBlob_session (rt : Runtime) (i : Nat) (blob : Blob) :
    (fetchAndStoreAssetBlob rt i blob).state.currentGameHost = rt.state.currentGameHost ∧
    (fetchAndStoreAssetBlob rt i blob).state.currentGameBasePathSegment
      = rt.state.currentGameBasePathSegment ∧
    (fetchAndStoreAssetBlob rt i blob).state.indexHtmlUrl = rt.state.indexHtmlUrl := by
  unfold fetchAndStoreAssetBlob
  split
  · split_ifs <;> exact ⟨rfl, rfl, rfl⟩
  · exact ⟨rfl, rfl, rfl⟩

theorem step_request_state (rt : Runtime) (d : Details) :
    (step rt (CaptureEvent.request d)).state = (handleHeaders rt.state d).state := by
  simp only [step]
  split
  · rw [fetchAndStoreAssetCall_state]
  · rfl

/-- A step keeps the three session variables when the handler it may run keeps
the state. -/
theorem step_session (rt : Runtime) (e : CaptureEvent)
    (h : ∀ r, e = CaptureEvent.request r → (handleHeaders rt.state r).state = rt.state) :
    (step rt e).state.currentGameHost = rt.state.currentGameHost ∧
    (step rt e).state.currentGameBasePathSegment = rt.state.currentGameBasePathSegment ∧
    (step rt e).state.indexHtmlUrl = rt.state.indexHtmlUrl := by
  cases e with
  | request d => rw [step_request_state, h d rfl]; exact ⟨rfl, rfl, rfl⟩
  | fetchResolved i ok => simp [step, fetchAndStoreAssetResponse_state]
  | fetchRejected i => simp [step, fetchAndStoreAssetCatch_state]
  | blobResolved i blob => exact fetchAndStoreAssetBlob_session rt i blob
  | blobRejected i => simp [step, fetchAndStoreAssetCatch_state]

theorem steps_session_of_identified (events : List CaptureEvent) (rt : Runtime)
    (h : truthy rt.state.currentGameHost = true) :
    (steps rt events).state.currentGameHost = rt.state.currentGameHost ∧
    (steps rt events).state.currentGameBasePathSegment = rt.state.currentGameBasePathSegment ∧
    (steps rt events).state.indexHtmlUrl = rt.state.indexHtmlUrl := by
  induction events generalizing rt with
  | nil => exact ⟨rfl, rfl, rfl⟩
  | cons e es ih =>
    have hs := step_session rt e (fun r _ => handleHeaders_state_of_identified rt.state r h)
    have h1 : truthy (step rt e).state.currentGameHost = true := by rw [hs.1]; exact h
    have := ih (step rt e) h1
    simp only [steps, List.foldl_cons] at this ⊢
    rw [this.1, this.2.1, this.2.2]
    exact hs

theorem steps_session_of_assets (events : List CaptureEvent) (rt : Runtime)
    (h : ∀ e ∈ events, ∀ r, e = CaptureEvent.request r →
      endsWith r.pathname "index.html" = false) :
    (steps rt events).state.currentGameHost = rt.state.currentGameHost ∧
    (steps rt events).state.currentGameBasePathSegment = rt.state.currentGameBasePathSegment ∧
    (steps rt events).state.indexHtmlUrl = rt.state.indexHtmlUrl := by
  induction events generalizing rt with
  | nil => exact ⟨rfl, rfl, rfl⟩
  | cons e es ih =>
    have hs := step_session rt e
      (fun r hr => handleHeaders_state_of_asset rt.state r (h e (List.mem_cons_self _ _) r hr))
    have := ih (step rt e) (fun e' he' => h e' (List.mem_cons_of_mem _ he'))
    simp only [steps, List.foldl_cons] at this ⊢
    rw [this.1, this.2.1, this.2.2]
    exact hs

theorem step_request_of_no_capture (rt : Runtime) (r : Details)
    (h : handleHeaders rt.state r
      = { state := rt.state, requestHeaders := r.requestHeaders, capture := none }) :
    step rt (CaptureEvent.request r) = rt := by
  simp only [step, h]

theorem steps_append (rt : Runtime) (xs ys : List CaptureEvent) :
    steps rt (xs ++ ys) = steps (steps rt xs) ys := by
  simp [steps, List.foldl_append]

/-- What holds for the test the handler makes (line 30): from a state with no
game identified, the first request whose path ends with the characters
`index.html` fixes `currentGameHost`,
`currentGameBasePathSegment` and `indexHtmlUrl`; the three keep these values
after every later sequence of requests and fetch completions, and a later
`index.html` request for another hostname leaves the state and the request
headers unchanged and starts no capture. -/
theorem first_index_request_fixes_session (rt0 : Runtime) (pre later : List CaptureEvent)
    (d : Details)
    (h0 : rt0.state.currentGameHost = none)
    (hpre : ∀ e ∈ pre, ∀ r, e = CaptureEvent.request r →
      endsWith r.pathname "index.html" = false)
    (hd : endsWith d.pathname "index.html" = true)
    (hhost : d.hostname ≠ "") :
    (steps rt0 (pre ++ CaptureEvent.request d :: later)).state.currentGameHost
      = some d.hostname ∧
    (steps rt0 (pre ++ CaptureEvent.request d :: later)).state.currentGameBasePathSegment
      = some (if 1 < ((split d.pathname '/').filter (fun seg => seg != "")).length
          then "/" ++ ((split d.pathname '/').filter (fun seg => seg != "")).headD "" ++ "/"
          else "/") ∧
    (steps rt0 (pre ++ CaptureEvent.request d :: later)).state.indexHtmlUrl = some d.url ∧
    (∀ r : Details, endsWith r.pathname "index.html" = true → r.hostname ≠ d.hostname →
      handleHeaders (steps rt0 (pre ++ CaptureEvent.request d :: later)).state r
        = { state := (steps rt0 (pre ++ CaptureEvent.request d :: later)).state,
            requestHeaders := r.requestHeaders, capture := none } ∧
      step (steps rt0 (pre ++ CaptureEvent.request d :: later)) (CaptureEvent.request r)
        = steps rt0 (pre ++ CaptureEvent.request d :: later)) := by
  have hp := steps_session_of_assets pre rt0 hpre
  have hnone : (steps rt0 pre).state.currentGameHost = none := by rw [hp.1, h0]
  have hstate : (step (steps rt0 pre) (CaptureEvent.request d)).state
      = { (steps rt0 pre).state with
          currentGameHost := some d.hostname, indexHtmlUrl := some d.url,
          currentGameBasePathSegment :=
            some (if 1 < ((split d.pathname '/').filter (fun seg => seg != "")).length
              then "/" ++ ((split d.pathname '/').filter (fun seg => seg != "")).headD "" ++ "/"
              else "/") } := by
    rw [step_request_state]
    simp [handleHeaders, hd, hnone, truthy]
  have htruthy : truthy (step (steps rt0 pre) (CaptureEvent.request d)).state.currentGameHost
      = true := by
    rw [hstate]; simpa [truthy] using hhost
  have hl := steps_session_of_identified later _ htruthy
  have hsplit : steps rt0 (pre ++ CaptureEvent.request d :: later)
      = steps (step (steps rt0 pre) (CaptureEvent.request d)) later := by
    rw [steps_append]; rfl
  rw [hsplit]
  have e1 : (steps (step (steps rt0 pre) (CaptureEvent.request d)) later).state.currentGameHost
      = some d.hostname := by rw [hl.1, hstate]
  refine ⟨e1, ?_, ?_, ?_⟩
  · rw [hl.2.1, hstate]
  · rw [hl.2.2, hstate]
  · intro r hr hne
    have hh : handleHeaders (steps (step (steps rt0 pre) (CaptureEvent.request d)) later).state r
        = { state := (steps (step (steps rt0 pre) (CaptureEvent.request d)) later).state,
            requestHeaders := r.requestHeaders, capture := none } := by
      simp [handleHeaders, hr, e1, truthy, hhost, hne]
    exact ⟨hh, step_request_of_no_capture _ r hh⟩

/-- Example of the lemma before: an asset request, then `index.html` on `a.poki-gdn.com`,
then an `index.html` request for `b.poki-gdn.com` and a fetch completion. -/
theorem first_index_request_fixes_session_witness :
    (steps initialRuntime
      [CaptureEvent.request ⟨"https://a.poki-gdn.com/u/x.js", "a.poki-gdn.com", "/u/x.js", []⟩,
       CaptureEvent.request
         ⟨"https://a.poki-gdn.com/u/index.html", "a.poki-gdn.com", "/u/index.html", []⟩,
       CaptureEvent.request
         ⟨"https://b.poki-gdn.com/w/index.html", "b.poki-gdn.com", "/w/index.html", []⟩,
       CaptureEvent.fetchResolved 0 true]).state.currentGameHost = some "a.poki-gdn.com" :=
  (first_index_request_fixes_session initialRuntime
    [CaptureEvent.request ⟨"https://a.poki-gdn.com/u/x.js", "a.poki-gdn.com", "/u/x.js", []⟩]
    [CaptureEvent.request
       ⟨"https://b.poki-gdn.com/w/index.html", "b.poki-gdn.com", "/w/index.html", []⟩,
     CaptureEvent.fetchResolved 0 true]
    ⟨"https://a.poki-gdn.com/u/index.html", "a.poki-gdn.com", "/u/index.html", []⟩
    rfl
    (by
      intro e he r hr
      rw [List.mem_singleton] at he
      rw [he] at hr
      cases hr
      decide)
    (by decide) (by decide)).1

/-- C2: the request `/u/myindex.html` on `a.poki-gdn.com`, whose final path
segment is not `index.html`, comes before the first entry-document request
`/w/index.html` on `b.poki-gdn.com`.  The test of line 30 lets the first one
identify the game: afterwards `currentGameHost`, `currentGameBasePathSegment`
and `indexHtmlUrl` are those of `a.poki-gdn.com`, the first entry-document
request has fixed nothing and started no capture. -/
theorem lookalike_request_identifies_before_index :
    (split "/u/myindex.html" '/').getLast? = some "myindex.html" ∧
    (split "/w/index.html" '/').getLast? = some "index.html" ∧
    (steps initialRuntime
      [CaptureEvent.request
         ⟨"https://a.poki-gdn.com/u/myindex.html", "a.poki-gdn.com", "/u/myindex.html", []⟩,
       CaptureEvent.request
         ⟨"https://b.poki-gdn.com/w/index.html", "b.poki-gdn.com", "/w/index.html", []⟩]
      ).state
      = { gameFiles := [], currentGameHost := some "a.poki-gdn.com",
          currentGameBasePathSegment := some "/u/",
          indexHtmlUrl := some "https://a.poki-gdn.com/u/myindex.html",
          activeDownloads := [] } ∧
    (handleHeaders
        (steps initialRuntime
          [CaptureEvent.request
             ⟨"https://a.poki-gdn.com/u/myindex.html", "a.poki-gdn.com", "/u/myindex.html",
               []⟩]).state
        ⟨"https://b.poki-gdn.com/w/index.html", "b.poki-gdn.com", "/w/index.html", []⟩
      ).capture = none ∧
    (steps initialRuntime
      [CaptureEvent.request
         ⟨"https://a.poki-gdn.com/u/myindex.html", "a.poki-gdn.com", "/u/myindex.html", []⟩,
       CaptureEvent.request
         ⟨"https://b.poki-gdn.com/w/index.html", "b.poki-gdn.com", "/w/index.html", []⟩]
      ).invocations
      = [⟨"https://a.poki-gdn.com/u/myindex.html", "index.html", Phase.awaitingResponse⟩] := by
  decide

/-! ## Capture races -/

/-- C3: two captures of the storage path `index.html` whose fetches both
resolve before either body has been read both pass the presence check of line
112, so both run line 114: after the first store `gameFiles` holds the first
blob under `index.html`, and the second store replaces it. -/
theorem fetchAndStoreAsset_second_store_overwrites :
    (steps initialRuntime
      [CaptureEvent.request
         ⟨"https://a.poki-gdn.com/u/index.html", "a.poki-gdn.com", "/u/index.html", []⟩,
       CaptureEvent.request
         ⟨"https://a.poki-gdn.com/u/menu/index.html", "a.poki-gdn.com", "/u/menu/index.html", []⟩,
       CaptureEvent.fetchResolved 0 true,
       CaptureEvent.fetchResolved 1 true,
       CaptureEvent.blobResolved 0 [1]]).state.gameFiles = [("index.html", [1])] ∧
    (steps initialRuntime
      [CaptureEvent.request
         ⟨"https://a.poki-gdn.com/u/index.html", "a.poki-gdn.com", "/u/index.html", []⟩,
       CaptureEvent.request
         ⟨"https://a.poki-gdn.com/u/menu/index.html", "a.poki-gdn.com", "/u/menu/index.html", []⟩,
       CaptureEvent.fetchResolved 0 true,
       CaptureEvent.fetchResolved 1 true,
       CaptureEvent.blobResolved 0 [1],
       CaptureEvent.blobResolved 1 [2]]).state.gameFiles = [("index.html", [2])] ∧
    (steps initialRuntime
      [CaptureEvent.request
         ⟨"https://a.poki-gdn.com/u/index.html", "a.poki-gdn.com", "/u/index.html", []⟩,
       CaptureEvent.request
         ⟨"https://a.poki-gdn.com/u/menu/index.html", "a.poki-gdn.com", "/u/menu/index.html", []⟩,
       CaptureEvent.fetchResolved 0 true,
       CaptureEvent.fetchResolved 1 true,
       CaptureEvent.blobResolved 0 [1],
       CaptureEvent.blobResolved 1 [2]]).stores
      = [("index.html", [1]), ("index.html", [2])] := by
  decide

/-! ## Export -/

/-- C4: with an empty `gameFiles`, the `createZip` message is answered with
the error `No files captured.`, `generateAndDownloadZip` is not run (so no
download is started), and the state is unchanged. -/
theorem createZip_without_files (s : State) (tabs : TabQuery) (host : HostAnswers)
    (h : s.gameFiles = []) :
    onMessage s "createZip" tabs host
      = { state := s, response := some (Response.error "No files captured."),
          zipRun := none } := by
  simp [onMessage, h]

/-- Witness for C4: the freshly loaded script. -/
theorem createZip_without_files_witness :
    onMessage initialState "createZip" TabQuery.noTabs
        ⟨none, "blob:1", DownloadOutcome.started 7⟩
      = { state := initialState, response := some (Response.error "No files captured."),
          zipRun := none } :=
  createZip_without_files initialState TabQuery.noTabs
    ⟨none, "blob:1", DownloadOutcome.started 7⟩ rfl

theorem addFiles_eq (files : List (String × Blob)) :
    addFiles files = (files, files.length) := by
  induction files with
  | nil => rfl
  | cons e rest ih =>
    obtain ⟨path, blob⟩ := e
    simp [addFiles, ih]

theorem lookup_mapSet (downloadId : Nat) (objectUrl : String) (m : List (Nat × String)) :
    (mapSet downloadId objectUrl m).lookup downloadId = some objectUrl := by
  induction m with
  | nil => simp [mapSet, List.lookup]
  | cons e rest ih =>
    obtain ⟨k, v⟩ := e
    by_cases hk : k = downloadId
    · simp [mapSet, hk, List.lookup]
    · have hk2 : (downloadId == k) = false := by
        simpa using fun h => hk h.symm
      simp [mapSet, hk, List.lookup, hk2, ih]

/-- C5: for a state with at least one captured file, an export whose download
starts with id `downloadId` calls `zip.file` with exactly the entries of
`gameFiles`, requests one download, resolves, records the object URL under
`downloadId` in `activeDownloads`, and leaves `gameFiles` empty and the three
session variables `null`; the listener answers `success`, and a `createZip`
message handled right afterwards is answered with `No files captured.`. -/
theorem export_consumes_capture (s : State) (name : String) (host : HostAnswers)
    (downloadId : Nat)
    (hfiles : s.gameFiles ≠ [])
    (hzip : host.zipError = none)
    (hstart : host.download = DownloadOutcome.started downloadId) :
    (generateAndDownloadZip s name host).zipFiles = s.gameFiles ∧
    (generateAndDownloadZip s name host).downloads.length = 1 ∧
    (generateAndDownloadZip s name host).error = none ∧
    (generateAndDownloadZip s name host).state.activeDownloads.lookup downloadId
      = some host.objectUrl ∧
    (generateAndDownloadZip s name host).state.gameFiles = [] ∧
    (generateAndDownloadZip s name host).state.currentGameHost = none ∧
    (generateAndDownloadZip s name host).state.currentGameBasePathSegment = none ∧
    (generateAndDownloadZip s name host).state.indexHtmlUrl = none ∧
    (∀ tabs : TabQuery,
      (onMessage s "createZip" tabs host).state
          = (generateAndDownloadZip s (pokiGameName tabs) host).state ∧
      (onMessage s "createZip" tabs host).response = some Response.success) ∧
    (∀ (tabs : TabQuery) (next : HostAnswers),
      onMessage (generateAndDownloadZip s name host).state "createZip" tabs next
        = { state := (generateAndDownloadZip s name host).state,
            response := some (Response.error "No files captured."), zipRun := none }) := by
  have hlen : s.gameFiles.length ≠ 0 := by
    simpa [List.length_eq_zero] using hfiles
  have hrun : ∀ n : String, generateAndDownloadZip s n host
      = { state := downloadStarted s downloadId host.objectUrl, zipFiles := s.gameFiles,
          downloads := [{ url := host.objectUrl, filename := n ++ ".zip",
                          conflictAction := "uniquify", saveAs := false }],
          revoked := [], error := none } := by
    intro n
    simp [generateAndDownloadZip, addFiles_eq, hlen, hzip, hstart]
  rw [hrun name]
  refine ⟨rfl, rfl, rfl, lookup_mapSet _ _ _, rfl, rfl, rfl, rfl, ?_, ?_⟩
  · intro tabs
    simp [onMessage, hlen, hrun]
  · intro tabs next
    simp [onMessage, downloadStarted]

/-- Witness for C5: two captured files, download started with id 7. -/
theorem export_consumes_capture_witness :
    (generateAndDownloadZip
        { gameFiles := [("index.html", [1]), ("js/main.js", [2, 3])],
          currentGameHost := some "a.poki-gdn.com",
          currentGameBasePathSegment := some "/u/",
          indexHtmlUrl := some "https://a.poki-gdn.com/u/index.html",
          activeDownloads := [] }
        "some-game" ⟨none, "blob:1", DownloadOutcome.started 7⟩).zipFiles
      = [("index.html", [1]), ("js/main.js", [2, 3])] :=
  (export_consumes_capture
    { gameFiles := [("index.html", [1]), ("js/main.js", [2, 3])],
      currentGameHost := some "a.poki-gdn.com",
      currentGameBasePathSegment := some "/u/",
      indexHtmlUrl := some "https://a.poki-gdn.com/u/index.html",
      activeDownloads := [] }
    "some-game" ⟨none, "blob:1", DownloadOutcome.started 7⟩ 7
    (by decide) rfl rfl).1

/-- C6: with one captured file and a download that fails to start, the
listener answers `success`: `generateAndDownloadZip` catches the rejection
(line 229) and resolves.  The object URL is revoked and the state is the one
before the export. -/
theorem createZip_answers_success_when_download_rejects :
    (onMessage
        { gameFiles := [("index.html", [1])],
          currentGameHost := some "a.poki-gdn.com",
          currentGameBasePathSegment := some "/u/",
          indexHtmlUrl := some "https://a.poki-gdn.com/u/index.html",
          activeDownloads := [] }
        "createZip" (TabQuery.url "poki.com" "/en/g/some-game")
        ⟨none, "blob:1", DownloadOutcome.rejected "Download canceled"⟩).response
      = some Response.success ∧
    (onMessage
        { gameFiles := [("index.html", [1])],
          currentGameHost := some "a.poki-gdn.com",
          currentGameBasePathSegment := some "/u/",
          indexHtmlUrl := some "https://a.poki-gdn.com/u/index.html",
          activeDownloads := [] }
        "createZip" (TabQuery.url "poki.com" "/en/g/some-game")
        ⟨none, "blob:1", DownloadOutcome.rejected "Download canceled"⟩).state
      = { gameFiles := [("index.html", [1])],
          currentGameHost := some "a.poki-gdn.com",
          currentGameBasePathSegment := some "/u/",
          indexHtmlUrl := some "https://a.poki-gdn.com/u/index.html",
          activeDownloads := [] } ∧
    (onMessage
        { gameFiles := [("index.html", [1])],
          currentGameHost := some "a.poki-gdn.com",
          currentGameBasePathSegment := some "/u/",
          indexHtmlUrl := some "https://a.poki-gdn.com/u/index.html",
          activeDownloads := [] }
        "createZip" (TabQuery.url "poki.com" "/en/g/some-game")
        ⟨none, "blob:1", DownloadOutcome.rejected "Download canceled"⟩).zipRun.map
          (fun r => r.revoked)
      = some ["blob:1"] := by
  decide

/-! ## Storage paths and the base path segment -/

theorem append_substring_of_startsWith (path b : String) (h : startsWith path b = true) :
    b ++ substring path b.length = path := by
  have hp : b.data <+: path.data := List.isPrefixOf_iff_prefix.mp h
  obtain ⟨t, ht⟩ := hp
  apply String.ext
  simp only [String.data_append, substring, String.length]
  rw [← ht, List.drop_left]

theorem slash_append_substring_one (path : String) (h : startsWith path "/" = true) :
    "/" ++ substring path 1 = path := by
  simpa using append_substring_of_startsWith path "/" h

/-- The base path segment is a non-empty string whenever a host is identified:
this holds in the initial state and is kept by every run of `handleHeaders`. -/
theorem handleHeaders_keeps_base_with_host (s : State) (d : Details)
    (h : truthy s.currentGameHost = true → truthy s.currentGameBasePathSegment = true) :
    truthy (handleHeaders s d).state.currentGameHost = true →
      truthy (handleHeaders s d).state.currentGameBasePathSegment = true := by
  by_cases hs : truthy s.currentGameHost = true
  · rw [handleHeaders_state_of_identified s d hs]; exact h
  · by_cases hd : endsWith d.pathname "index.html" = true
    · intro _
      have hs2 : truthy s.currentGameHost = false := by simpa using hs
      have hne : ∀ x : String, "/" ++ x ++ "/" ≠ "" := by
        intro x e
        have := congrArg String.data e
        simp [String.data_append] at this
      have hb : (handleHeaders s d).state.currentGameBasePathSegment
          = some (if 1 < ((split d.pathname '/').filter (fun seg => seg != "")).length
              then "/" ++ ((split d.pathname '/').filter (fun seg => seg != "")).headD "" ++ "/"
              else "/") := by
        simp [handleHeaders, hd, hs2]
      rw [hb]
      split_ifs
      · simpa [truthy] using hne _
      · decide
    · have hd2 : endsWith d.pathname "index.html" = false := by simpa using hd
      rw [handleHeaders_state_of_asset s d hd2]; exact h

/-- What holds for the requests that reach branch 2 (lines 67-85): for a
request whose path does not end with the characters `index.html`, handled while
a game is identified on the request's hostname, the storage path is what is left
of the request path after the base path segment when that segment begins the
path, and what is left after the leading slash otherwise; the capture
`fetchAndStoreAsset(url, storagePath)` is started exactly when that storage
path is non-empty. -/
theorem asset_request_storage_path (s : State) (d : Details) (host base : String)
    (hhost : s.currentGameHost = some host) (hne : host ≠ "")
    (hbase : s.currentGameBasePathSegment = some base) (hbne : base ≠ "")
    (hreq : d.hostname = host)
    (hasset : endsWith d.pathname "index.html" = false)
    (hslash : startsWith d.pathname "/" = true) :
    ∃ storagePath : String,
      (startsWith d.pathname base = true → base ++ storagePath = d.pathname) ∧
      (startsWith d.pathname base = false → "/" ++ storagePath = d.pathname) ∧
      (storagePath ≠ "" → (handleHeaders s d).capture = some (d.url, storagePath)) ∧
      (storagePath = "" → (handleHeaders s d).capture = none) := by
  by_cases hp : startsWith d.pathname base = true
  · refine ⟨substring d.pathname base.length, fun _ => append_substring_of_startsWith _ _ hp,
      fun h => ?_, fun h => ?_, fun h => ?_⟩
    · rw [hp] at h; cases h
    · simp [handleHeaders, hasset, hhost, hbase, truthy, hne, hbne, hreq, hp, h]
    · simp [handleHeaders, hasset, hhost, hbase, truthy, hne, hbne, hreq, hp, h]
  · have hp2 : startsWith d.pathname base = false := by simpa using hp
    refine ⟨substring d.pathname 1, fun h => ?_, fun _ => slash_append_substring_one _ hslash,
      fun h => ?_, fun h => ?_⟩
    · exact absurd h hp
    · simp [handleHeaders, hasset, hhost, hbase, truthy, hne, hbne, hreq, hp2, h]
    · simp [handleHeaders, hasset, hhost, hbase, truthy, hne, hbne, hreq, hp2, h]

/-- Example of the lemma before: `/u/js/main.js` with base path segment `/u/`. -/
theorem asset_request_storage_path_witness :
    ∃ storagePath : String,
      (startsWith "/u/js/main.js" "/u/" = true → "/u/" ++ storagePath = "/u/js/main.js") ∧
      (startsWith "/u/js/main.js" "/u/" = false → "/" ++ storagePath = "/u/js/main.js") ∧
      (storagePath ≠ "" →
        (handleHeaders
          { gameFiles := [], currentGameHost := some "a.poki-gdn.com",
            currentGameBasePathSegment := some "/u/",
            indexHtmlUrl := some "https://a.poki-gdn.com/u/index.html", activeDownloads := [] }
          ⟨"https://a.poki-gdn.com/u/js/main.js", "a.poki-gdn.com", "/u/js/main.js", []⟩).capture
          = some ("https://a.poki-gdn.com/u/js/main.js", storagePath)) ∧
      (storagePath = "" →
        (handleHeaders
          { gameFiles := [], currentGameHost := some "a.poki-gdn.com",
            currentGameBasePathSegment := some "/u/",
            indexHtmlUrl := some "https://a.poki-gdn.com/u/index.html", activeDownloads := [] }
          ⟨"https://a.poki-gdn.com/u/js/main.js", "a.poki-gdn.com", "/u/js/main.js", []⟩).capture
          = none) :=
  asset_request_storage_path
    { gameFiles := [], currentGameHost := some "a.poki-gdn.com",
      currentGameBasePathSegment := some "/u/",
      indexHtmlUrl := some "https://a.poki-gdn.com/u/index.html", activeDownloads := [] }
    ⟨"https://a.poki-gdn.com/u/js/main.js", "a.poki-gdn.com", "/u/js/main.js", []⟩
    "a.poki-gdn.com" "/u/" rfl (by decide) rfl (by decide) rfl (by decide) (by decide)

/-- C7: with the game identified on `a.poki-gdn.com` and the base path segment
`/u/`, the request `/u/pages/subindex.html` has the final path segment
`subindex.html`, so it is no entry-document request, and the base path segment
begins its path, which leaves the storage path `pages/subindex.html`.  The test
of line 30 sends it to branch 1: the capture is started under `index.html`. -/
theorem lookalike_asset_captured_as_index :
    (split "/u/pages/subindex.html" '/').getLast? = some "subindex.html" ∧
    startsWith "/u/pages/subindex.html" "/u/" = true ∧
    "/u/" ++ "pages/subindex.html" = "/u/pages/subindex.html" ∧
    (handleHeaders
        { gameFiles := [], currentGameHost := some "a.poki-gdn.com",
          currentGameBasePathSegment := some "/u/",
          indexHtmlUrl := some "https://a.poki-gdn.com/u/index.html", activeDownloads := [] }
        ⟨"https://a.poki-gdn.com/u/pages/subindex.html", "a.poki-gdn.com",
          "/u/pages/subindex.html", []⟩).capture
      = some ("https://a.poki-gdn.com/u/pages/subindex.html", "index.html") ∧
    (handleHeaders
        { gameFiles := [], currentGameHost := some "a.poki-gdn.com",
          currentGameBasePathSegment := some "/u/",
          indexHtmlUrl := some "https://a.poki-gdn.com/u/index.html", activeDownloads := [] }
        ⟨"https://a.poki-gdn.com/u/pages/subindex.html", "a.poki-gdn.com",
          "/u/pages/subindex.html", []⟩).capture
      ≠ some ("https://a.poki-gdn.com/u/pages/subindex.html", "pages/subindex.html") := by
  decide

theorem splitChars_ne_nil (sep : Char) (l : List Char) : splitChars sep l ≠ [] := by
  cases l with
  | nil => simp [splitChars]
  | cons c cs =>
    simp only [splitChars]
    split_ifs
    · simp
    · split <;> simp

/-- A non-empty suffix without separator is the end of the last piece. -/
theorem splitChars_getLast_suffix (sep : Char) (suf l : List Char)
    (hsuf : suf <:+ l) (hsep : sep ∉ suf) :
    ∃ seg ∈ splitChars sep l, suf <:+ seg := by
  induction l with
  | nil =>
    have : suf = [] := List.eq_nil_of_suffix_nil hsuf
    subst this
    exact ⟨[], by simp [splitChars], List.suffix_refl _⟩
  | cons c cs ih =>
    rcases List.suffix_cons_iff.mp hsuf with h | h
    · subst h
      -- the whole list has no separator: a single piece
      have hall : ∀ (m : List Char), sep ∉ m → splitChars sep m = [m] := by
        intro m hm
        induction m with
        | nil => rfl
        | cons x xs ihx =>
          have hx : x ≠ sep := fun e => hm (by simp [e])
          have hxs : sep ∉ xs := fun e => hm (List.mem_cons_of_mem _ e)
          simp [splitChars, hx, ihx hxs]
      rw [hall _ hsep]
      exact ⟨_, List.mem_singleton.mpr rfl, List.suffix_refl _⟩
    · obtain ⟨seg, hmem, hs⟩ := ih h
      simp only [splitChars]
      split_ifs with hc
      · exact ⟨seg, List.mem_cons_of_mem _ hmem, hs⟩
      · split
        · rename_i heq
          exact absurd heq (splitChars_ne_nil sep cs)
        · rename_i seg0 rest heq
          rw [heq] at hmem
          rcases List.mem_cons.mp hmem with h1 | h1
          · subst h1
            exact ⟨c :: seg, List.mem_cons_self _ _, List.suffix_cons_iff.mpr (Or.inr hs)⟩
          · exact ⟨seg, List.mem_cons_of_mem _ h1, hs⟩

theorem nonEmptySegments_ne_nil_of_index (path : String)
    (h : endsWith path "index.html" = true) :
    (split path '/').filter (fun seg => seg != "") ≠ [] := by
  have hsuf : "index.html".data <:+ path.data := List.isSuffixOf_iff_suffix.mp h
  obtain ⟨seg, hmem, hs⟩ := splitChars_getLast_suffix '/' _ _ hsuf (by decide)
  have hne : seg ≠ [] := by
    intro e
    rw [e] at hs
    have := List.eq_nil_of_suffix_nil hs
    revert this
    decide
  intro hnil
  have hin : String.mk seg ∈ (split path '/').filter (fun seg => seg != "") := by
    rw [List.mem_filter]
    refine ⟨List.mem_map_of_mem _ hmem, ?_⟩
    simp only [bne_iff_ne, ne_eq]
    intro e
    exact hne (congrArg String.data e)
  rw [hnil] at hin
  cases hin

/-- C8 as stated fails: the first request `/index.html` of a session has the
non-empty path segment `index.html`, yet the base path segment becomes `/` and
not `/index.html/`. -/
theorem base_path_segment_of_root_index :
    (split "/index.html" '/').filter (fun seg => seg != "") = ["index.html"] ∧
    (handleHeaders initialState
        ⟨"https://a.poki-gdn.com/index.html", "a.poki-gdn.com", "/index.html", []⟩
      ).state.currentGameBasePathSegment = some "/" ∧
    (handleHeaders initialState
        ⟨"https://a.poki-gdn.com/index.html", "a.poki-gdn.com", "/index.html", []⟩
      ).state.currentGameBasePathSegment ≠ some ("/" ++ "index.html" ++ "/") := by
  decide

/-- C8, amended: an `index.html` request handled while no game is identified
records its hostname as `currentGameHost` and its URL as `indexHtmlUrl`; the
path has at least one non-empty segment, and `currentGameBasePathSegment`
becomes `/` + the first non-empty segment + `/` when the path has two or more
non-empty segments, and `/` when it has exactly one. -/
theorem first_index_request_identifies_game (s : State) (d : Details)
    (hs : truthy s.currentGameHost = false)
    (hd : endsWith d.pathname "index.html" = true) :
    (handleHeaders s d).state.currentGameHost = some d.hostname ∧
    (handleHeaders s d).state.indexHtmlUrl = some d.url ∧
    (split d.pathname '/').filter (fun seg => seg != "") ≠ [] ∧
    (∀ (first second : String) (rest : List String),
      (split d.pathname '/').filter (fun seg => seg != "") = first :: second :: rest →
      (handleHeaders s d).state.currentGameBasePathSegment = some ("/" ++ first ++ "/")) ∧
    (∀ only : String,
      (split d.pathname '/').filter (fun seg => seg != "") = [only] →
      (handleHeaders s d).state.currentGameBasePathSegment = some "/") := by
  refine ⟨?_, ?_, nonEmptySegments_ne_nil_of_index _ hd, ?_, ?_⟩
  · simp [handleHeaders, hd, hs]
  · simp [handleHeaders, hd, hs]
  · intro first second rest hsegs
    simp [handleHeaders, hd, hs, hsegs]
  · intro only hsegs
    simp [handleHeaders, hd, hs, hsegs]

/-- Witness for C8, amended: `/u/index.html` gives the base path segment `/u/`. -/
theorem first_index_request_identifies_game_witness :
    (handleHeaders initialState
        ⟨"https://a.poki-gdn.com/u/index.html", "a.poki-gdn.com", "/u/index.html", []⟩
      ).state.currentGameBasePathSegment = some ("/" ++ "u" ++ "/") :=
  (first_index_request_identifies_game initialState
    ⟨"https://a.poki-gdn.com/u/index.html", "a.poki-gdn.com", "/u/index.html", []⟩
    (by decide) (by decide)).2.2.2.1 "u" "index.html" [] (by decide)

/-! ## Export file name -/

theorem indexOf_eq_some (x : String) (l : List String) (i : Nat)
    (h : indexOf x l = some i) :
    l[i]? = some x ∧ ∀ j, j < i → l[j]? ≠ some x := by
  induction l generalizing i with
  | nil => simp [indexOf] at h
  | cons y ys ih =>
    simp only [indexOf] at h
    split_ifs at h with hy
    · cases h
      exact ⟨by simp [hy], fun j hj => absurd hj (Nat.not_lt_zero j)⟩
    · cases hi : indexOf x ys with
      | none => simp [hi] at h
      | some k =>
        simp [hi] at h
        subst h
        obtain ⟨h1, h2⟩ := ih k hi
        refine ⟨by simpa using h1, fun j hj => ?_⟩
        cases j with
        | zero => simpa using hy
        | succ j => simpa using h2 j (by omega)

theorem indexOf_le_of_getElem (x : String) (l : List String) (i : Nat)
    (h : l[i]? = some x) : ∃ j, j ≤ i ∧ indexOf x l = some j := by
  induction l generalizing i with
  | nil => simp at h
  | cons y ys ih =>
    by_cases hy : y = x
    · exact ⟨0, Nat.zero_le _, by simp [indexOf, hy]⟩
    · cases i with
      | zero => simp at h; exact absurd h hy
      | succ i =>
        obtain ⟨j, hj, hidx⟩ := ih i (by simpa using h)
        exact ⟨j + 1, by omega, by simp [indexOf, hy, hidx]⟩

theorem sanitize_kept (seg : String) : ∀ c ∈ (sanitize seg).data, keptChar c = true := by
  intro c hc
  simp only [sanitize, List.mem_map] at hc
  obtain ⟨a, _, ha⟩ := hc
  split_ifs at ha with hk
  · rw [← ha]; exact hk
  · rw [← ha]; decide

theorem pokiGameName_cases (tabs : TabQuery) :
    pokiGameName tabs = "poki_game" ∨ ∃ seg, pokiGameName tabs = sanitize seg := by
  cases tabs with
  | url hostname pathname =>
    simp only [pokiGameName]
    split_ifs
    · split
      · split_ifs
        · exact Or.inr ⟨_, rfl⟩
        · exact Or.inl rfl
      · exact Or.inl rfl
    · exact Or.inl rfl
  | _ => exact Or.inl rfl

/-- C9: the base name of the export.  When the active tab's hostname ends with
`poki.com` and a segment `g` of its path is followed by another segment, the
base name is the sanitised segment that follows the first `g`; for any other
hostname, for a path without such a `g`, and when no tab URL is available, it
is `poki_game`.  Sanitising maps each character outside `[A-Za-z0-9_-]` to `_`
and keeps the others, so the base name only has characters of that set; the
download is requested under the base name followed by `.zip`. -/
theorem export_base_name :
    (∀ (hostname pathname : String) (i : Nat), endsWith hostname "poki.com" = true →
      (split pathname '/')[i]? = some "g" → i + 1 < (split pathname '/').length →
      ∃ (j : Nat) (seg : String), j ≤ i ∧ (split pathname '/')[j]? = some "g" ∧
        (∀ k, k < j → (split pathname '/')[k]? ≠ some "g") ∧
        (split pathname '/')[j + 1]? = some seg ∧
        pokiGameName (TabQuery.url hostname pathname) = sanitize seg) ∧
    (∀ hostname pathname : String, endsWith hostname "poki.com" = false →
      pokiGameName (TabQuery.url hostname pathname) = "poki_game") ∧
    (∀ hostname pathname : String,
      (∀ i, (split pathname '/')[i]? = some "g" → (split pathname '/').length ≤ i + 1) →
      pokiGameName (TabQuery.url hostname pathname) = "poki_game") ∧
    (pokiGameName TabQuery.rejected = "poki_game" ∧ pokiGameName TabQuery.noTabs = "poki_game" ∧
      pokiGameName TabQuery.noUrl = "poki_game" ∧
      pokiGameName TabQuery.invalidUrl = "poki_game") ∧
    (∀ seg : String, (sanitize seg).data.length = seg.data.length ∧
      ∀ (i : Nat) (c : Char), seg.data[i]? = some c →
        (sanitize seg).data[i]? = some (if keptChar c then c else '_')) ∧
    (∀ c : Char, keptChar c = true ↔
      (('a' ≤ c ∧ c ≤ 'z') ∨ ('A' ≤ c ∧ c ≤ 'Z') ∨ ('0' ≤ c ∧ c ≤ '9') ∨ c = '_' ∨ c = '-')) ∧
    (∀ tabs : TabQuery, ∀ c ∈ (pokiGameName tabs).data, keptChar c = true) ∧
    pokiGameName (TabQuery.url "poki.com" "/en/g/some-game/") = "some-game" ∧
    (∀ (s : State) (tabs : TabQuery) (host : HostAnswers) (r : ExportResult),
      (onMessage s "createZip" tabs host).zipRun = some r →
      ∀ o ∈ r.downloads, o.filename = pokiGameName tabs ++ ".zip") := by
  refine ⟨?_, ?_, ?_, ⟨rfl, rfl, rfl, rfl⟩, ?_, ?_, ?_, by decide, ?_⟩
  · intro hostname pathname i hh hg hi
    obtain ⟨j, hj, hidx⟩ := indexOf_le_of_getElem _ _ _ hg
    obtain ⟨h1, h2⟩ := indexOf_eq_some _ _ _ hidx
    have hlt : j + 1 < (split pathname '/').length := by omega
    refine ⟨j, (split pathname '/').getD (j + 1) "", hj, h1, h2, ?_, ?_⟩
    · rw [List.getD_eq_getElem?_getD, List.getElem?_eq_getElem hlt]; rfl
    · have hlt2 : j < (split pathname '/').length - 1 := by omega
      simp [pokiGameName, hh, hidx, hlt2]
  · intro hostname pathname hh
    simp [pokiGameName, hh]
  · intro hostname pathname hno
    simp only [pokiGameName]
    split_ifs
    · cases hidx : indexOf "g" (split pathname '/') with
      | none => rfl
      | some j =>
        have := hno j (indexOf_eq_some _ _ _ hidx).1
        have hlt : ¬ j < (split pathname '/').length - 1 := by omega
        simp [hlt]
    · rfl
  · intro seg
    refine ⟨by simp [sanitize], fun i c hc => ?_⟩
    simp [sanitize, List.getElem?_map, hc]
  · intro c
    simp only [keptChar, Char.isLower, Char.isUpper, Char.isDigit, Bool.or_eq_true,
      Bool.and_eq_true, decide_eq_true_eq, beq_iff_eq, Char.le_def, ge_iff_le]
    constructor
    · rintro ((((h | h) | h) | h) | h)
      · exact Or.inl h
      · exact Or.inr (Or.inl h)
      · exact Or.inr (Or.inr (Or.inl h))
      · exact Or.inr (Or.inr (Or.inr (Or.inl h)))
      · exact Or.inr (Or.inr (Or.inr (Or.inr h)))
    · rintro (h | h | h | h | h)
      · exact Or.inl (Or.inl (Or.inl (Or.inl h)))
      · exact Or.inl (Or.inl (Or.inl (Or.inr h)))
      · exact Or.inl (Or.inl (Or.inr h))
      · exact Or.inl (Or.inr h)
      · exact Or.inr h
  · intro tabs c hc
    rcases pokiGameName_cases tabs with h | ⟨seg, h⟩
    · rw [h] at hc
      revert c
      decide
    · rw [h] at hc
      exact sanitize_kept seg c hc
  · intro s tabs host r hr o ho
    simp only [onMessage, if_true] at hr
    split_ifs at hr with h0
    simp only [Option.some.injEq] at hr
    subst hr
    simp only [generateAndDownloadZip] at ho
    split_ifs at ho
    · cases ho
    · split at ho
      · cases ho
      · split at ho <;> simp at ho <;> rw [ho]

/-- Witness for C9: the tab `https://poki.com/en/g/some-game/`. -/
theorem export_base_name_witness :
    ∃ (j : Nat) (seg : String), j ≤ 2 ∧ (split "/en/g/some-game/" '/')[j]? = some "g" ∧
      (∀ k, k < j → (split "/en/g/some-game/" '/')[k]? ≠ some "g") ∧
      (split "/en/g/some-game/" '/')[j + 1]? = some seg ∧
      pokiGameName (TabQuery.url "poki.com" "/en/g/some-game/") = sanitize seg :=
  export_base_name.1 "poki.com" "/en/g/some-game/" 2 (by decide) (by decide) (by decide)

/-! ## The `index.html` test -/

/-- C10: a request for `/u/myindex.html`, whose final path segment is
`myindex.html`, takes the `index.html` branch of `handleHeaders`: it is
captured under the storage path `index.html` when a game is identified on its
hostname, and it identifies the game when none is. -/
theorem myindex_request_handled_as_index :
    (split "/u/myindex.html" '/').getLast? = some "myindex.html" ∧
    (handleHeaders
        { gameFiles := [("index.html", [1])], currentGameHost := some "a.poki-gdn.com",
          currentGameBasePathSegment := some "/u/",
          indexHtmlUrl := some "https://a.poki-gdn.com/u/index.html", activeDownloads := [] }
        ⟨"https://a.poki-gdn.com/u/myindex.html", "a.poki-gdn.com", "/u/myindex.html", []⟩
      ).capture = some ("https://a.poki-gdn.com/u/myindex.html", "index.html") ∧
    (handleHeaders initialState
        ⟨"https://a.poki-gdn.com/u/myindex.html", "a.poki-gdn.com", "/u/myindex.html", []⟩
      ).state.currentGameHost = some "a.poki-gdn.com" ∧
    (handleHeaders initialState
        ⟨"https://a.poki-gdn.com/u/myindex.html", "a.poki-gdn.com", "/u/myindex.html", []⟩
      ).capture = some ("https://a.poki-gdn.com/u/myindex.html", "index.html") := by
  decide

end GameDownloader
